import Mathlib

/-!
Shallow embedding of the wagering ledger and settlement engine of the
oracle-sport backend (an Express/PostgreSQL sports-betting service), and
proofs about it.

The embedding follows the source controllers statement by statement:
* `placeBet`         — `BetController.placeBet` (src/controllers/betController.ts),
  the placement transaction behind `POST /bets`;
* `updateTicketStatusBet`    — `BetController.updateTicketStatus`,
  the admin settlement endpoint `PUT /bets/admin/:id/status`;
* `updateTicketStatusTicket` — `TicketController.updateTicketStatus`,
  the admin settlement endpoint on the `/tickets` router;
* `deleteTicket`     — `TicketController.deleteTicket`;
* `updateUserByAdmin` — `UserController.updateUserByAdmin`;
* `updateOddsPrice`  — `OddsModel.update` restricted to the `price` column.

Monetary amounts and prices are exact rationals (`Rat`), matching the
`numeric(15,2)` / `numeric(10,2)` columns; timestamps are integers; SQL
row sets are lists of records, with `WHERE id = $1` lookups embedded as
first-match searches and `UPDATE ... WHERE` as structure-preserving maps.
A controller transaction is a function from the database state to the new
state paired with the HTTP-level outcome; `ROLLBACK` on a thrown error is
embedded by returning the original state unchanged.
-/

deriving instance DecidableEq for Except

namespace OracleSport

/-- Status of a ticket and of each of its legs (`ticket_items.status`,
`tickets.status`: 'pending' | 'won' | 'lost' | 'canceled'). -/
inductive TicketStatus
  | pending
  | won
  | lost
  | canceled
deriving DecidableEq, Repr

/-- Row of the `users` table (the columns the ledger logic touches). -/
structure User where
  id : Nat
  balance : Rat
  role : String
deriving DecidableEq, Repr

/-- Row of the `events` table (the columns placement touches). -/
structure Event where
  id : Nat
  commenceTime : Int
  status : String
deriving DecidableEq, Repr

/-- Row of the `odds` table: one immutable price snapshot for one outcome
of one event. -/
structure Odds where
  id : Nat
  eventId : Nat
  price : Rat
  outcomeName : String
  handicap : Option Rat
  total : Option Rat
deriving DecidableEq, Repr

/-- Row of the `tickets` table: the bet aggregate. -/
structure Ticket where
  id : Nat
  userId : Nat
  totalOdds : Rat
  stakeAmount : Rat
  potentialPayout : Rat
  status : TicketStatus
deriving DecidableEq, Repr

/-- Row of the `ticket_items` table: one leg of a ticket, with the price
frozen from the odds snapshot into `oddsValue` at placement time. -/
structure TicketItem where
  ticketId : Nat
  eventId : Nat
  oddsId : Nat
  oddsValue : Rat
  selection : String
  handicap : Option Rat
  total : Option Rat
  status : TicketStatus
deriving DecidableEq, Repr

/-- The durable store: the five tables the ledger logic reads and writes,
plus the ticket id sequence. -/
structure DB where
  users : List User
  events : List Event
  odds : List Odds
  tickets : List Ticket
  ticketItems : List TicketItem
  nextTicketId : Nat
deriving DecidableEq, Repr

/-- One leg request in the `POST /bets` body. The controller destructures
only `oddsId` (`const { oddsId } = selection`); `declaredPrice` stands for
any price the client quotes alongside it, which the controller never
reads. -/
structure Selection where
  oddsId : Nat
  declaredPrice : Option Rat
deriving DecidableEq, Repr

/-- Domain errors: each constructor corresponds to one `AppError` thrown
by the controllers. -/
inductive BetError
  /-- 400 'Se requiere al menos una selección para la apuesta'. -/
  | invalidInput
  /-- 404 'Usuario no encontrado'. -/
  | userNotFound
  /-- 400 'Saldo insuficiente'. -/
  | insufficientFunds
  /-- 404 'Cuota con id ... no encontrada'. -/
  | oddsNotFound (oddsId : Nat)
  /-- 400 'El evento para la selección ... ya ha comenzado'. -/
  | eventAlreadyStarted (oddsId : Nat)
  /-- 404 'Ticket no encontrado'. -/
  | ticketNotFound
  /-- 400 'No se puede modificar un ticket que ya está ...'. -/
  | illegalTransition (current : TicketStatus)
  /-- 400 'Solo se pueden eliminar tickets pendientes o cancelados'. -/
  | deleteNotAllowed
deriving DecidableEq, Repr

/-- Result body of a successful placement (`res.status(201)` data). -/
structure PlaceResult where
  ticketId : Nat
  stakeAmount : Rat
  totalOdds : Rat
  potentialPayout : Rat
deriving DecidableEq, Repr

/-- First row of `SELECT ... FROM users WHERE id = $1`. -/
def findUserL : List User → Nat → Option User
  | [], _ => none
  | u :: rest, uid => if u.id = uid then some u else findUserL rest uid

/-- First row of `SELECT ... FROM events WHERE id = $1`. -/
def findEventL : List Event → Nat → Option Event
  | [], _ => none
  | e :: rest, eid => if e.id = eid then some e else findEventL rest eid

/-- First row of `SELECT ... FROM odds WHERE id = $1`. -/
def findOddsL : List Odds → Nat → Option Odds
  | [], _ => none
  | o :: rest, oid => if o.id = oid then some o else findOddsL rest oid

/-- First row of `SELECT ... FROM tickets WHERE id = $1`. -/
def findTicketL : List Ticket → Nat → Option Ticket
  | [], _ => none
  | t :: rest, tid => if t.id = tid then some t else findTicketL rest tid

def findUser (db : DB) (uid : Nat) : Option User := findUserL db.users uid

def findTicket (db : DB) (tid : Nat) : Option Ticket := findTicketL db.tickets tid

/-- The odds lookup of `placeBet`:
`SELECT o.*, e.commence_time FROM odds o JOIN events e ON o.event_id = e.id
WHERE o.id = $1` — the snapshot row joined with its event. -/
def findOddsWithEvent (db : DB) (oddsId : Nat) : Option (Odds × Event) :=
  match findOddsL db.odds oddsId with
  | none => none
  | some o =>
    match findEventL db.events o.eventId with
    | none => none
    | some e => some (o, e)

/-- `UPDATE users SET balance = balance + $1 WHERE id = $2`. -/
def creditUsers (uid : Nat) (amount : Rat) : List User → List User
  | [] => []
  | u :: rest =>
    (if u.id = uid then { u with balance := u.balance + amount } else u)
      :: creditUsers uid amount rest

/-- `UPDATE users SET balance = balance - $1 WHERE id = $2`. -/
def debitUsers (uid : Nat) (amount : Rat) : List User → List User
  | [] => []
  | u :: rest =>
    (if u.id = uid then { u with balance := u.balance - amount } else u)
      :: debitUsers uid amount rest

/-- `UPDATE users SET balance = $1 WHERE id = $2`. -/
def setBalanceUsers (uid : Nat) (amount : Rat) : List User → List User
  | [] => []
  | u :: rest =>
    (if u.id = uid then { u with balance := amount } else u)
      :: setBalanceUsers uid amount rest

/-- `UPDATE users SET role = $1 WHERE id = $2`. -/
def setRoleUsers (uid : Nat) (role : String) : List User → List User
  | [] => []
  | u :: rest =>
    (if u.id = uid then { u with role := role } else u)
      :: setRoleUsers uid role rest

/-- `UPDATE tickets SET status = $1 WHERE id = $2`. -/
def updateTicketsStatus (tid : Nat) (s : TicketStatus) : List Ticket → List Ticket
  | [] => []
  | t :: rest =>
    (if t.id = tid then { t with status := s } else t)
      :: updateTicketsStatus tid s rest

/-- `UPDATE ticket_items SET status = $1 WHERE ticket_id = $2`. -/
def updateItemsStatus (tid : Nat) (s : TicketStatus) : List TicketItem → List TicketItem
  | [] => []
  | i :: rest =>
    (if i.ticketId = tid then { i with status := s } else i)
      :: updateItemsStatus tid s rest

/-- Conversion of an American-odds price to a decimal multiplier, exactly
as `placeBet` computes it:
`if (price > 0) decimalOdds = 1 + price / 100;
 else decimalOdds = 1 + 100 / Math.abs(price);`. -/
def decimalOdds (price : Rat) : Rat :=
  if 0 < price then 1 + price / 100 else 1 + 100 / |price|

/-- Conversion of an American-odds price to a decimal multiplier as the
specification words it: `1 + price/100` when `price ≥ 0` and
`1 + 100/abs(price)` when `price < 0`. Stated separately from
`decimalOdds` so the two can be compared. -/
def specDecimalOdds (price : Rat) : Rat :=
  if 0 ≤ price then 1 + price / 100 else 1 + 100 / |price|

/-- Loop body of `placeBet` over the request's selections: resolve each
leg's odds snapshot joined with its event, reject a leg whose event has
already started (`eventTime <= now`), multiply the running total odds by
the leg's decimal odds, and collect the resolved snapshot rows. -/
def placeBetLoop (now : Int) (db : DB) :
    List Selection → Rat → List Odds → Except BetError (Rat × List Odds)
  | [], totalOdds, details => .ok (totalOdds, details.reverse)
  | sel :: rest, totalOdds, details =>
    match findOddsWithEvent db sel.oddsId with
    | none => .error (.oddsNotFound sel.oddsId)
    | some (o, e) =>
      if e.commenceTime ≤ now then .error (.eventAlreadyStarted sel.oddsId)
      else placeBetLoop now db rest (totalOdds * decimalOdds o.price) (o :: details)

/-- The `INSERT INTO ticket_items` row built from one resolved snapshot:
the leg copies `event_id`, `odds_id`, and freezes the snapshot's `price`
into `odds_value`. -/
def mkTicketItem (ticketId : Nat) (o : Odds) : TicketItem :=
  { ticketId := ticketId, eventId := o.eventId, oddsId := o.id,
    oddsValue := o.price, selection := o.outcomeName,
    handicap := o.handicap, total := o.total, status := .pending }

/-- Body of the placement transaction (`BetController.placeBet` between
`BEGIN` and `COMMIT`): validate the selections list, look up the user's
balance, reject on insufficient funds, resolve and gate every leg, insert
the ticket row and its items, and debit the stake. Note that the route's
`stakeAmount` validator result is never consulted by the controller, so
no positivity check on the stake appears here, faithfully to the code. -/
def placeBetTx (now : Int) (userId : Nat) (stakeAmount : Rat)
    (selections : List Selection) (db : DB) : Except BetError (DB × PlaceResult) :=
  if selections.isEmpty then .error .invalidInput
  else
    match findUser db userId with
    | none => .error .userNotFound
    | some user =>
      if user.balance < stakeAmount then .error .insufficientFunds
      else
        match placeBetLoop now db selections 1 [] with
        | .error e => .error e
        | .ok (totalOdds, details) =>
          let potentialPayout := stakeAmount * totalOdds
          let ticketId := db.nextTicketId
          let newTicket : Ticket :=
            { id := ticketId, userId := userId, totalOdds := totalOdds,
              stakeAmount := stakeAmount, potentialPayout := potentialPayout,
              status := .pending }
          let db1 := { db with
            tickets := db.tickets ++ [newTicket],
            ticketItems := db.ticketItems ++ details.map (mkTicketItem ticketId),
            nextTicketId := ticketId + 1 }
          let db2 := { db1 with users := debitUsers userId stakeAmount db1.users }
          .ok (db2, { ticketId := ticketId, stakeAmount := stakeAmount,
                      totalOdds := totalOdds, potentialPayout := potentialPayout })

/-- `BetController.placeBet` as observed by the caller: on success the
transaction commits; on any thrown error the `catch` block issues
`ROLLBACK`, leaving the store exactly as before. -/
def placeBet (now : Int) (userId : Nat) (stakeAmount : Rat)
    (selections : List Selection) (db : DB) : DB × Except BetError PlaceResult :=
  match placeBetTx now userId stakeAmount selections db with
  | .ok (db', r) => (db', .ok r)
  | .error e => (db, .error e)

/-- `BetController.updateTicketStatus` (`PUT /bets/admin/:id/status`).
The route validator restricts `status` to the four ticket statuses, which
the `TicketStatus` argument type captures. If the ticket is already in
the requested status the call is a no-op returning the current row.
Otherwise the ticket row and all its items are overwritten with the new
status — with no check that the current status is `pending` — and the
balance is credited only when the ticket moves out of `pending` into
`won` (potential payout) or `canceled` (stake). -/
def updateTicketStatusBet (db : DB) (ticketId : Nat) (status : TicketStatus) :
    DB × Except BetError Ticket :=
  match findTicket db ticketId with
  | none => (db, .error .ticketNotFound)
  | some ticket =>
    if ticket.status = status then (db, .ok ticket)
    else
      let itemStatus := if status = TicketStatus.canceled then TicketStatus.canceled else status
      let db1 := { db with
        tickets := updateTicketsStatus ticketId status db.tickets,
        ticketItems := updateItemsStatus ticketId itemStatus db.ticketItems }
      let db2 :=
        if status = TicketStatus.won ∧ ticket.status = TicketStatus.pending then
          { db1 with users := creditUsers ticket.userId ticket.potentialPayout db1.users }
        else db1
      let db3 :=
        if status = TicketStatus.canceled ∧ ticket.status = TicketStatus.pending then
          { db2 with users := creditUsers ticket.userId ticket.stakeAmount db2.users }
        else db2
      (db3, .ok { ticket with status := status })

/-- `TicketController.updateTicketStatus` (the `/tickets` admin settlement
endpoint). Identical lookup and same-status no-op, but a ticket that is
not `pending` is rejected ('No se puede modificar un ticket que ya está
...'); on a legal `pending → status` transition the ticket and its items
are updated and the balance credited on `won` / `canceled`. The row
updates performed through `TicketModel.updateStatus` and
`TicketItemModel.updateStatusByTicketId` are the plain status `UPDATE`s
shown in models/ticketItem.ts. -/
def updateTicketStatusTicket (db : DB) (ticketId : Nat) (status : TicketStatus) :
    DB × Except BetError Ticket :=
  match findTicket db ticketId with
  | none => (db, .error .ticketNotFound)
  | some ticket =>
    if ticket.status = status then (db, .ok ticket)
    else if ticket.status ≠ TicketStatus.pending then
      (db, .error (.illegalTransition ticket.status))
    else
      let db1 := { db with
        tickets := updateTicketsStatus ticketId status db.tickets,
        ticketItems := updateItemsStatus ticketId status db.ticketItems }
      let db2 :=
        if status = TicketStatus.won then
          { db1 with users := creditUsers ticket.userId ticket.potentialPayout db1.users }
        else db1
      let db3 :=
        if status = TicketStatus.canceled then
          { db2 with users := creditUsers ticket.userId ticket.stakeAmount db2.users }
        else db2
      (db3, .ok { ticket with status := status })

/-- `TicketController.deleteTicket`: only `pending` or `canceled` tickets
may be deleted; deleting a `pending` ticket first refunds its stake; then
the items and the ticket row are deleted. -/
def deleteTicket (db : DB) (ticketId : Nat) : DB × Except BetError Unit :=
  match findTicket db ticketId with
  | none => (db, .error .ticketNotFound)
  | some ticket =>
    if ticket.status ≠ TicketStatus.pending ∧ ticket.status ≠ TicketStatus.canceled then
      (db, .error .deleteNotAllowed)
    else
      let db1 :=
        if ticket.status = TicketStatus.pending then
          { db with users := creditUsers ticket.userId ticket.stakeAmount db.users }
        else db
      let db2 := { db1 with
        ticketItems := db1.ticketItems.filter (fun i => ¬ i.ticketId = ticketId),
        tickets := db1.tickets.filter (fun t => ¬ t.id = ticketId) }
      (db2, .ok ())

/-- `UserController.updateUserByAdmin`: updates the role when one is
provided and overwrites the balance when one is provided
(`UPDATE users SET balance = $1 WHERE id = $2`), then re-reads the row. -/
def updateUserByAdmin (db : DB) (userId : Nat) (role : Option String)
    (balance : Option Rat) : DB × Except BetError User :=
  match findUser db userId with
  | none => (db, .error .userNotFound)
  | some _ =>
    let db1 :=
      match role with
      | some r => { db with users := setRoleUsers userId r db.users }
      | none => db
    let db2 :=
      match balance with
      | some b => { db1 with users := setBalanceUsers userId b db1.users }
      | none => db1
    match findUser db2 userId with
    | some u => (db2, .ok u)
    | none => (db2, .error .userNotFound)

/-- `OddsModel.update` restricted to the `price` column:
`UPDATE odds SET price = $1 WHERE id = $2` — the write through which a
later odds refresh changes a snapshot's price. -/
def updateOddsPrice (db : DB) (oddsId : Nat) (price : Rat) : DB :=
  { db with odds := db.odds.map (fun o => if o.id = oddsId then { o with price := price } else o) }

/-- Committed balance of a user as observed by a reader (`SELECT balance
FROM users WHERE id = $1`). -/
def balOf (db : DB) (uid : Nat) : Option Rat := (findUser db uid).map User.balance

/-- The state-mutating operations of the system that the claims range
over, each applied through the corresponding controller embedding. -/
inductive AdminOp
  | placeBet (now : Int) (userId : Nat) (stake : Rat) (sels : List Selection)
  | settleBet (ticketId : Nat) (status : TicketStatus)
  | settleTicket (ticketId : Nat) (status : TicketStatus)
  | deleteTicket (ticketId : Nat)
  | adminUpdateUser (userId : Nat) (role : Option String) (balance : Option Rat)
  | updateOddsPrice (oddsId : Nat) (price : Rat)

/-- Effect of one operation on the store (the HTTP outcome is dropped;
a failed operation leaves the store unchanged by construction). -/
def applyOp (op : AdminOp) (db : DB) : DB :=
  match op with
  | .placeBet now uid stake sels => (placeBet now uid stake sels db).1
  | .settleBet tid st => (updateTicketStatusBet db tid st).1
  | .settleTicket tid st => (updateTicketStatusTicket db tid st).1
  | .deleteTicket tid => (deleteTicket db tid).1
  | .adminUpdateUser uid r b => (updateUserByAdmin db uid r b).1
  | .updateOddsPrice oid p => updateOddsPrice db oid p

/-- Run a sequence of operations left to right. -/
def runOps (ops : List AdminOp) (db : DB) : DB :=
  ops.foldl (fun d op => applyOp op d) db

/-- Operations consisting of bet placements and of settlements taken
through the ticket-controller endpoint (the settlement path that rejects
transitions out of terminal states). -/
def TicketPathOp : AdminOp → Prop
  | .placeBet _ _ _ _ => True
  | .settleTicket _ _ => True
  | _ => False

/-- Net effect a ticket in its current status has had on its owner's
balance, relative to the balance before the ticket was placed:
placement debited the stake, a won settlement credited the potential
payout, a canceled settlement credited the stake back. -/
def ticketNet (t : Ticket) : Rat :=
  match t.status with
  | .pending => -t.stakeAmount
  | .won => t.potentialPayout - t.stakeAmount
  | .lost => -t.stakeAmount
  | .canceled => 0

/-- Sum of `ticketNet` over the tickets belonging to one user. -/
def netSum (l : List Ticket) (uid : Nat) : Rat :=
  (l.map (fun t => if t.userId = uid then ticketNet t else 0)).sum

/-- Sum of the stakes of all of a user's tickets. -/
def sumStakes (l : List Ticket) (uid : Nat) : Rat :=
  ((l.filter (fun t => decide (t.userId = uid))).map Ticket.stakeAmount).sum

/-- Sum of the potential payouts of a user's tickets whose status is
`won`. -/
def sumWonPayouts (l : List Ticket) (uid : Nat) : Rat :=
  ((l.filter (fun t => decide (t.userId = uid ∧ t.status = TicketStatus.won))).map
    Ticket.potentialPayout).sum

/-- Sum of the stakes of a user's tickets whose status is `canceled`. -/
def sumCanceledStakes (l : List Ticket) (uid : Nat) : Rat :=
  ((l.filter (fun t => decide (t.userId = uid ∧ t.status = TicketStatus.canceled))).map
    Ticket.stakeAmount).sum

/-- Balance of a user minus the net effect of that user's tickets: the
quantity that placements and (guarded) settlements conserve. -/
def ledger (db : DB) (uid : Nat) : Option Rat :=
  (findUser db uid).map (fun u => u.balance - netSum db.tickets uid)

/-- Well-formedness maintained by the store: ticket primary keys are
distinct and below the ticket id sequence value. -/
def WFdb (db : DB) : Prop :=
  (db.tickets.map Ticket.id).Nodup ∧ ∀ i ∈ db.tickets.map Ticket.id, i < db.nextTicketId

/-- Snapshot prices of a request's legs as resolved in a given store
state (the joined lookup `placeBet` performs for each leg). -/
def legPrices (db : DB) (sels : List Selection) : List Rat :=
  sels.filterMap (fun s => (findOddsWithEvent db s.oddsId).map (fun oe => oe.1.price))

/-- The store with every event's `status` column rewritten by `f` (the
other columns untouched); used to state that placement never consults
event statuses. -/
def withEventStatuses (f : Event → String) (db : DB) : DB :=
  { db with events := db.events.map (fun e => { e with status := f e }) }

/-- Example store: one user with balance 100, one upcoming event at time
100, and two odds snapshots priced +150 and -120. -/
def exDB : DB :=
  { users := [{ id := 1, balance := 100, role := "user" }],
    events := [{ id := 1, commenceTime := 100, status := "upcoming" }],
    odds := [{ id := 1, eventId := 1, price := 150, outcomeName := "Home",
               handicap := none, total := none },
             { id := 2, eventId := 1, price := -120, outcomeName := "Away",
               handicap := none, total := none }],
    tickets := [], ticketItems := [], nextTicketId := 1 }

/-- Example store: as `exDB` but the user's balance is only 5. -/
def exDBLow : DB :=
  { exDB with users := [{ id := 1, balance := 5, role := "user" }] }

/-- Example store: as `exDB` but the event's status is `completed` while
its commence time is still in the future. -/
def exDBDone : DB :=
  { exDB with events := [{ id := 1, commenceTime := 100, status := "completed" }] }

/-- Example store after placing a 10-unit single-leg bet at +150 from
`exDB`: the user's balance is 90 and a pending ticket with potential
payout 25 exists. -/
def exDBPending : DB :=
  { users := [{ id := 1, balance := 90, role := "user" }],
    events := [{ id := 1, commenceTime := 100, status := "upcoming" }],
    odds := [{ id := 1, eventId := 1, price := 150, outcomeName := "Home",
               handicap := none, total := none },
             { id := 2, eventId := 1, price := -120, outcomeName := "Away",
               handicap := none, total := none }],
    tickets := [{ id := 1, userId := 1, totalOdds := 5/2, stakeAmount := 10,
                  potentialPayout := 25, status := .pending }],
    ticketItems := [{ ticketId := 1, eventId := 1, oddsId := 1, oddsValue := 150,
                      selection := "Home", handicap := none, total := none,
                      status := .pending }],
    nextTicketId := 2 }

/-- Example store after settling the ticket of `exDBPending` as won:
balance 115, ticket and leg `won`. -/
def exDBWon : DB :=
  { exDBPending with
    users := [{ id := 1, balance := 115, role := "user" }],
    tickets := [{ id := 1, userId := 1, totalOdds := 5/2, stakeAmount := 10,
                  potentialPayout := 25, status := .won }],
    ticketItems := [{ ticketId := 1, eventId := 1, oddsId := 1, oddsValue := 150,
                      selection := "Home", handicap := none, total := none,
                      status := .won }] }

/-- Example trace: place a single-leg 10-unit bet at +150, then settle it
as won through the ticket-controller endpoint. -/
def exOps : List AdminOp :=
  [.placeBet 0 1 10 [{ oddsId := 1, declaredPrice := none }], .settleTicket 1 .won]

/-- Example trace: place the same bet, then drive the ticket `lost` and
afterwards `won` through the bet-controller endpoint. -/
def exOpsBet : List AdminOp :=
  [.placeBet 0 1 10 [{ oddsId := 1, declaredPrice := none }],
   .settleBet 1 .lost, .settleBet 1 .won]

/-- Example store after placing a 10-unit two-leg bet (+150 and -120)
from `exDB`: total odds 55/12, potential payout 275/6. -/
def exDBPlaced : DB :=
  { users := [{ id := 1, balance := 90, role := "user" }],
    events := [{ id := 1, commenceTime := 100, status := "upcoming" }],
    odds := [{ id := 1, eventId := 1, price := 150, outcomeName := "Home",
               handicap := none, total := none },
             { id := 2, eventId := 1, price := -120, outcomeName := "Away",
               handicap := none, total := none }],
    tickets := [{ id := 1, userId := 1, totalOdds := 55/12, stakeAmount := 10,
                  potentialPayout := 275/6, status := .pending }],
    ticketItems := [{ ticketId := 1, eventId := 1, oddsId := 1, oddsValue := 150,
                      selection := "Home", handicap := none, total := none,
                      status := .pending },
                    { ticketId := 1, eventId := 1, oddsId := 2, oddsValue := -120,
                      selection := "Away", handicap := none, total := none,
                      status := .pending }],
    nextTicketId := 2 }

/-- Response of the two-leg placement of `exDBPlaced`. -/
def exPlacedR : PlaceResult :=
  { ticketId := 1, stakeAmount := 10, totalOdds := 55/12, potentialPayout := 275/6 }

/-! ### Basic lemmas about the row-level operations -/

lemma creditUsers_eq_map (uid : Nat) (a : Rat) (l : List User) :
    creditUsers uid a l
      = l.map (fun u => if u.id = uid then { u with balance := u.balance + a } else u) := by
  induction l with
  | nil => rfl
  | cons u rest ih => simp [creditUsers, ih]

lemma debitUsers_eq_map (uid : Nat) (a : Rat) (l : List User) :
    debitUsers uid a l
      = l.map (fun u => if u.id = uid then { u with balance := u.balance - a } else u) := by
  induction l with
  | nil => rfl
  | cons u rest ih => simp [debitUsers, ih]

lemma setBalanceUsers_eq_map (uid : Nat) (a : Rat) (l : List User) :
    setBalanceUsers uid a l
      = l.map (fun u => if u.id = uid then { u with balance := a } else u) := by
  induction l with
  | nil => rfl
  | cons u rest ih => simp [setBalanceUsers, ih]

lemma setRoleUsers_eq_map (uid : Nat) (r : String) (l : List User) :
    setRoleUsers uid r l
      = l.map (fun u => if u.id = uid then { u with role := r } else u) := by
  induction l with
  | nil => rfl
  | cons u rest ih => simp [setRoleUsers, ih]

lemma updateTicketsStatus_eq_map (tid : Nat) (s : TicketStatus) (l : List Ticket) :
    updateTicketsStatus tid s l
      = l.map (fun t => if t.id = tid then { t with status := s } else t) := by
  induction l with
  | nil => rfl
  | cons t rest ih => simp [updateTicketsStatus, ih]

lemma findUserL_map (g : User → User) (hg : ∀ u, (g u).id = u.id) (l : List User) (x : Nat) :
    findUserL (l.map g) x = (findUserL l x).map g := by
  induction l with
  | nil => rfl
  | cons u rest ih =>
    simp only [List.map_cons, findUserL, hg u]
    by_cases h : u.id = x
    · simp [h]
    · simp [h, ih]

lemma findTicketL_map (g : Ticket → Ticket) (hg : ∀ t, (g t).id = t.id)
    (l : List Ticket) (x : Nat) :
    findTicketL (l.map g) x = (findTicketL l x).map g := by
  induction l with
  | nil => rfl
  | cons t rest ih =>
    simp only [List.map_cons, findTicketL, hg t]
    by_cases h : t.id = x
    · simp [h]
    · simp [h, ih]

lemma findEventL_map (g : Event → Event) (hg : ∀ e, (g e).id = e.id)
    (l : List Event) (x : Nat) :
    findEventL (l.map g) x = (findEventL l x).map g := by
  induction l with
  | nil => rfl
  | cons e rest ih =>
    simp only [List.map_cons, findEventL, hg e]
    by_cases h : e.id = x
    · simp [h]
    · simp [h, ih]

lemma findTicketL_some {l : List Ticket} {tid : Nat} {t : Ticket}
    (h : findTicketL l tid = some t) : t ∈ l ∧ t.id = tid := by
  induction l with
  | nil => cases h
  | cons u rest ih =>
    by_cases hu : u.id = tid
    · have : u = t := by simpa [findTicketL, hu] using h
      exact ⟨by simp [this.symm ▸ List.mem_cons_self u rest, this], this ▸ hu⟩
    · have h' : findTicketL rest tid = some t := by simpa [findTicketL, hu] using h
      exact ⟨List.mem_cons_of_mem u (ih h').1, (ih h').2⟩

lemma findTicketL_append_left {l1 l2 : List Ticket} {tid : Nat}
    (h : ∀ t ∈ l1, ¬ t.id = tid) :
    findTicketL (l1 ++ l2) tid = findTicketL l2 tid := by
  induction l1 with
  | nil => rfl
  | cons t rest ih =>
    have ht := h t (List.mem_cons_self t rest)
    simp only [List.cons_append, findTicketL, if_neg ht]
    exact ih (fun x hx => h x (List.mem_cons_of_mem t hx))

lemma updateTicketsStatus_of_not_mem {l : List Ticket} {tid : Nat} {s : TicketStatus}
    (h : ∀ t ∈ l, ¬ t.id = tid) : updateTicketsStatus tid s l = l := by
  induction l with
  | nil => rfl
  | cons t rest ih =>
    have ht := h t (List.mem_cons_self t rest)
    simp only [updateTicketsStatus, if_neg ht]
    rw [ih (fun x hx => h x (List.mem_cons_of_mem t hx))]

/-! ### Lemmas about `netSum` and the conservation sums -/

lemma netSum_nil (uid : Nat) : netSum [] uid = 0 := rfl

lemma netSum_cons (t : Ticket) (l : List Ticket) (uid : Nat) :
    netSum (t :: l) uid = (if t.userId = uid then ticketNet t else 0) + netSum l uid := by
  simp [netSum]

lemma netSum_append (l1 l2 : List Ticket) (uid : Nat) :
    netSum (l1 ++ l2) uid = netSum l1 uid + netSum l2 uid := by
  simp [netSum]

lemma netSum_updateStatus {l : List Ticket} (tid : Nat) (s : TicketStatus) (uid : Nat)
    (hnd : (l.map Ticket.id).Nodup) {t : Ticket} (hf : findTicketL l tid = some t) :
    netSum (updateTicketsStatus tid s l) uid
      = netSum l uid - (if t.userId = uid then ticketNet t else 0)
        + (if t.userId = uid then ticketNet { t with status := s } else 0) := by
  induction l with
  | nil => cases hf
  | cons h rest ih =>
    rw [List.map_cons, List.nodup_cons] at hnd
    by_cases hh : h.id = tid
    · have hth : h = t := by simpa [findTicketL, hh] using hf
      subst hth
      have hrest : updateTicketsStatus tid s rest = rest := by
        refine updateTicketsStatus_of_not_mem (fun x hx hEq => hnd.1 ?_)
        rw [hh, ← hEq]
        exact List.mem_map_of_mem Ticket.id hx
      simp only [updateTicketsStatus, if_pos hh, hrest, netSum_cons]
      ring
    · have hf' : findTicketL rest tid = some t := by simpa [findTicketL, hh] using hf
      simp only [updateTicketsStatus, if_neg hh, netSum_cons, ih hnd.2 hf']
      ring

lemma sumStakes_cons (t : Ticket) (rest : List Ticket) (uid : Nat) :
    sumStakes (t :: rest) uid
      = (if t.userId = uid then t.stakeAmount else 0) + sumStakes rest uid := by
  by_cases hu : t.userId = uid <;> simp [sumStakes, List.filter_cons, hu]

lemma sumWonPayouts_cons (t : Ticket) (rest : List Ticket) (uid : Nat) :
    sumWonPayouts (t :: rest) uid
      = (if t.userId = uid ∧ t.status = TicketStatus.won then t.potentialPayout else 0)
        + sumWonPayouts rest uid := by
  by_cases hc : t.userId = uid ∧ t.status = TicketStatus.won <;>
    simp [sumWonPayouts, List.filter_cons, hc]

lemma sumCanceledStakes_cons (t : Ticket) (rest : List Ticket) (uid : Nat) :
    sumCanceledStakes (t :: rest) uid
      = (if t.userId = uid ∧ t.status = TicketStatus.canceled then t.stakeAmount else 0)
        + sumCanceledStakes rest uid := by
  by_cases hc : t.userId = uid ∧ t.status = TicketStatus.canceled <;>
    simp [sumCanceledStakes, List.filter_cons, hc]

lemma netSum_eq_sums (l : List Ticket) (uid : Nat) :
    netSum l uid = -(sumStakes l uid) + sumWonPayouts l uid + sumCanceledStakes l uid := by
  induction l with
  | nil => simp [netSum, sumStakes, sumWonPayouts, sumCanceledStakes]
  | cons t rest ih =>
    rw [netSum_cons, sumStakes_cons, sumWonPayouts_cons, sumCanceledStakes_cons, ih]
    by_cases hu : t.userId = uid
    · cases hs : t.status <;> simp [hu, hs, ticketNet] <;> ring
    · simp only [if_neg hu, if_neg (fun hc => hu (And.left hc))]
      ring

lemma findUserL_some_id {l : List User} {x : Nat} {u : User}
    (h : findUserL l x = some u) : u.id = x := by
  induction l with
  | nil => cases h
  | cons v rest ih =>
    by_cases hv : v.id = x
    · have : v = u := by simpa [findUserL, hv] using h
      exact this ▸ hv
    · exact ih (by simpa [findUserL, hv] using h)

lemma findUserL_credit (l : List User) (uid : Nat) (a : Rat) (x : Nat) :
    findUserL (creditUsers uid a l) x
      = (findUserL l x).map
          (fun u => if u.id = uid then { u with balance := u.balance + a } else u) := by
  rw [creditUsers_eq_map]
  exact findUserL_map _ (fun u => by by_cases h : u.id = uid <;> simp [h]) l x

lemma findUserL_debit (l : List User) (uid : Nat) (a : Rat) (x : Nat) :
    findUserL (debitUsers uid a l) x
      = (findUserL l x).map
          (fun u => if u.id = uid then { u with balance := u.balance - a } else u) := by
  rw [debitUsers_eq_map]
  exact findUserL_map _ (fun u => by by_cases h : u.id = uid <;> simp [h]) l x

lemma findUserL_setBalance (l : List User) (uid : Nat) (a : Rat) (x : Nat) :
    findUserL (setBalanceUsers uid a l) x
      = (findUserL l x).map (fun u => if u.id = uid then { u with balance := a } else u) := by
  rw [setBalanceUsers_eq_map]
  exact findUserL_map _ (fun u => by by_cases h : u.id = uid <;> simp [h]) l x

lemma findUserL_setRole (l : List User) (uid : Nat) (r : String) (x : Nat) :
    findUserL (setRoleUsers uid r l) x
      = (findUserL l x).map (fun u => if u.id = uid then { u with role := r } else u) := by
  rw [setRoleUsers_eq_map]
  exact findUserL_map _ (fun u => by by_cases h : u.id = uid <;> simp [h]) l x

/-! ### Characterization of a committed placement -/

lemma placeBetTx_ok {now : Int} {uid : Nat} {stake : Rat} {sels : List Selection}
    {db db' : DB} {r : PlaceResult}
    (h : placeBetTx now uid stake sels db = .ok (db', r)) :
    ∃ user totalOdds details,
      findUser db uid = some user ∧ ¬ user.balance < stake ∧
      placeBetLoop now db sels 1 [] = .ok (totalOdds, details) ∧
      r = { ticketId := db.nextTicketId, stakeAmount := stake,
            totalOdds := totalOdds, potentialPayout := stake * totalOdds } ∧
      db' = { db with
        users := debitUsers uid stake db.users,
        tickets := db.tickets
          ++ [{ id := db.nextTicketId, userId := uid, totalOdds := totalOdds,
                stakeAmount := stake, potentialPayout := stake * totalOdds,
                status := .pending }],
        ticketItems := db.ticketItems ++ details.map (mkTicketItem db.nextTicketId),
        nextTicketId := db.nextTicketId + 1 } := by
  unfold placeBetTx at h
  split at h
  · exact absurd h (by simp)
  split at h
  · exact absurd h (by simp)
  rename_i user hfu
  split at h
  · exact absurd h (by simp)
  rename_i hbal
  split at h
  · exact absurd h (by simp)
  rename_i totalOdds details hloop
  simp only [Except.ok.injEq, Prod.mk.injEq] at h
  exact ⟨user, totalOdds, details, hfu, hbal, hloop, h.2.symm, h.1.symm⟩

/-! ### Ledger and well-formedness preservation -/

lemma ledger_eq (db : DB) (uid : Nat) :
    ledger db uid = (balOf db uid).map (fun b => b - netSum db.tickets uid) := by
  cases h : findUser db uid <;> simp [ledger, balOf, h]

lemma ledger_placeBet (now : Int) (pid : Nat) (stake : Rat) (sels : List Selection)
    (db : DB) (x : Nat) :
    ledger (placeBet now pid stake sels db).1 x = ledger db x := by
  unfold placeBet
  cases htx : placeBetTx now pid stake sels db with
  | error e => rfl
  | ok p =>
    obtain ⟨db', r⟩ := p
    obtain ⟨user, T, D, hfu, hbal, hloop, hr, hdb⟩ := placeBetTx_ok htx
    subst hdb
    simp only [ledger, findUser, netSum_append, netSum_cons, netSum_nil, ticketNet,
      findUserL_debit]
    cases hx : findUserL db.users x with
    | none => rfl
    | some u =>
      have hid : u.id = x := findUserL_some_id hx
      by_cases hpx : pid = x
      · subst hpx
        simp [hid]
        ring
      · have : ¬ u.id = pid := fun hc => hpx (hc.symm.trans hid)
        simp [this, hpx]

lemma WF_placeBet (now : Int) (pid : Nat) (stake : Rat) (sels : List Selection)
    (db : DB) (wf : WFdb db) :
    WFdb (placeBet now pid stake sels db).1 := by
  unfold placeBet
  cases htx : placeBetTx now pid stake sels db with
  | error e => exact wf
  | ok p =>
    obtain ⟨db', r⟩ := p
    obtain ⟨user, T, D, hfu, hbal, hloop, hr, hdb⟩ := placeBetTx_ok htx
    subst hdb
    obtain ⟨hnd, hlt⟩ := wf
    constructor
    · simp only [List.map_append, List.map_cons, List.map_nil]
      rw [List.nodup_append]
      refine ⟨hnd, List.nodup_singleton _, ?_⟩
      intro a ha hb
      have hb' : a = db.nextTicketId := by simpa using hb
      exact absurd (hb' ▸ hlt a ha) (lt_irrefl _)
    · intro i hi
      simp only [List.map_append, List.map_cons, List.map_nil, List.mem_append,
        List.mem_singleton] at hi
      rcases hi with hi | hi
      · exact Nat.lt_succ_of_lt (hlt i hi)
      · exact hi ▸ Nat.lt_succ_self _

lemma updateTicketsStatus_map_id (tid : Nat) (s : TicketStatus) (l : List Ticket) :
    (updateTicketsStatus tid s l).map Ticket.id = l.map Ticket.id := by
  induction l with
  | nil => rfl
  | cons t rest ih => by_cases h : t.id = tid <;> simp [updateTicketsStatus, h, ih]

lemma ledger_settleTicket (db : DB) (tid : Nat) (s : TicketStatus) (x : Nat)
    (wf : WFdb db) :
    ledger (updateTicketStatusTicket db tid s).1 x = ledger db x := by
  unfold updateTicketStatusTicket
  cases hft : findTicket db tid with
  | none => rfl
  | some t =>
    dsimp only
    by_cases h1 : t.status = s
    · simp [h1]
    · by_cases h2 : t.status = TicketStatus.pending
      · rw [if_neg h1, if_neg (not_not_intro h2)]
        have hnet := netSum_updateStatus (l := db.tickets) tid s x wf.1 (t := t) hft
        cases hx : findUserL db.users x with
        | none =>
          cases s <;>
            simp [ledger, findUser, findUserL_credit, hx]
        | some u =>
          have hid : u.id = x := findUserL_some_id hx
          by_cases hux : t.userId = x
          · have hu2 : u.id = t.userId := hid.trans hux.symm
            cases s with
            | pending => exact absurd h2 (fun hc => h1 (hc.trans rfl))
            | won =>
              simp [ledger, findUser, findUserL_credit, hx, hnet, hu2, hux, ticketNet, h2]
            | lost =>
              simp [ledger, findUser, hx, hnet, hu2, hux, ticketNet, h2]
            | canceled =>
              simp [ledger, findUser, findUserL_credit, hx, hnet, hu2, hux, ticketNet, h2]
          · have hu2 : ¬ u.id = t.userId := fun hc => hux (hc.symm.trans hid)
            cases s with
            | pending => exact absurd h2 (fun hc => h1 (hc.trans rfl))
            | won =>
              simp [ledger, findUser, findUserL_credit, hx, hnet, hu2, hux]
            | lost =>
              simp [ledger, findUser, hx, hnet, hu2, hux]
            | canceled =>
              simp [ledger, findUser, findUserL_credit, hx, hnet, hu2, hux]
      · rw [if_neg h1, if_pos (fun hc => h2 hc)]

lemma WF_settleTicket (db : DB) (tid : Nat) (s : TicketStatus) (wf : WFdb db) :
    WFdb (updateTicketStatusTicket db tid s).1 := by
  unfold updateTicketStatusTicket
  cases hft : findTicket db tid with
  | none => exact wf
  | some t =>
    dsimp only
    by_cases h1 : t.status = s
    · simpa [h1] using wf
    · by_cases h2 : t.status = TicketStatus.pending
      · rw [if_neg h1, if_neg (not_not_intro h2)]
        cases s with
        | pending => exact absurd h2 (fun hc => h1 (hc.trans rfl))
        | won =>
          exact ⟨by simpa [updateTicketsStatus_map_id] using wf.1,
            by simpa [updateTicketsStatus_map_id] using wf.2⟩
        | lost =>
          exact ⟨by simpa [updateTicketsStatus_map_id] using wf.1,
            by simpa [updateTicketsStatus_map_id] using wf.2⟩
        | canceled =>
          exact ⟨by simpa [updateTicketsStatus_map_id] using wf.1,
            by simpa [updateTicketsStatus_map_id] using wf.2⟩
      · rw [if_neg h1, if_pos (fun hc => h2 hc)]
        exact wf

lemma step_preserves (op : AdminOp) (hop : TicketPathOp op) (db : DB) (wf : WFdb db) :
    WFdb (applyOp op db) ∧ ∀ x, ledger (applyOp op db) x = ledger db x := by
  cases op with
  | placeBet now uid stake sels =>
    exact ⟨WF_placeBet now uid stake sels db wf,
      fun x => ledger_placeBet now uid stake sels db x⟩
  | settleTicket tid s =>
    exact ⟨WF_settleTicket db tid s wf, fun x => ledger_settleTicket db tid s x wf⟩
  | settleBet tid s => exact absurd hop (by simp [TicketPathOp])
  | deleteTicket tid => exact absurd hop (by simp [TicketPathOp])
  | adminUpdateUser uid r b => exact absurd hop (by simp [TicketPathOp])
  | updateOddsPrice oid p => exact absurd hop (by simp [TicketPathOp])

lemma runOps_preserves (ops : List AdminOp) (db : DB)
    (h : ∀ op ∈ ops, TicketPathOp op) (wf : WFdb db) :
    WFdb (runOps ops db) ∧ ∀ x, ledger (runOps ops db) x = ledger db x := by
  induction ops generalizing db with
  | nil => exact ⟨wf, fun x => rfl⟩
  | cons op rest ih =>
    have h1 := step_preserves op (h op (List.mem_cons_self op rest)) db wf
    have h2 := ih (applyOp op db) (fun o ho => h o (List.mem_cons_of_mem op ho)) h1.1
    exact ⟨h2.1, fun x => (h2.2 x).trans (h1.2 x)⟩

/-! ### Claim C2 — conservation -/

/-- C2 (amended): for any sequence of bet placements and of settlements
taken through the ticket-controller settlement endpoint (the path that
rejects transitions out of terminal states), on a well-formed store with
no pre-existing tickets, the final balance of every user equals the
initial balance minus the sum of stakes of all placed tickets, plus the
sum of potential payouts of the tickets whose final status is won, plus
the sum of stakes of the tickets whose final status is canceled. As
stated over all settlement endpoints the claim fails, because the
bet-controller settlement endpoint re-settles terminal tickets
(see `conservation_fails_via_bet_settlement`). -/
theorem conservation_via_ticket_settlement
    (ops : List AdminOp) (db0 : DB) (hops : ∀ op ∈ ops, TicketPathOp op)
    (hwf : WFdb db0) (h0 : db0.tickets = []) (uid : Nat) (u0 : User)
    (hu : findUser db0 uid = some u0) :
    balOf (runOps ops db0) uid
      = some (u0.balance - sumStakes (runOps ops db0).tickets uid
          + sumWonPayouts (runOps ops db0).tickets uid
          + sumCanceledStakes (runOps ops db0).tickets uid) := by
  obtain ⟨-, hled⟩ := runOps_preserves ops db0 hops hwf
  have h1 : ledger (runOps ops db0) uid = some u0.balance := by
    rw [hled uid]
    simp [ledger, hu, h0, netSum_nil]
  cases hru : findUser (runOps ops db0) uid with
  | none => rw [ledger, hru] at h1; simp at h1
  | some u' =>
    rw [ledger, hru] at h1
    simp only [Option.map_some', Option.some.injEq] at h1
    rw [balOf, hru, Option.map_some']
    refine congrArg some ?_
    have h2 : u'.balance = u0.balance + netSum (runOps ops db0).tickets uid := by
      linarith
    rw [h2, netSum_eq_sums]
    ring

/-- C2 witness: on `exDB` (one user with balance 100), placing a 10-unit
single-leg bet at +150 and settling it won through the ticket controller
satisfies the conservation formula. -/
theorem conservation_via_ticket_settlement_witness :
    (∀ op ∈ exOps, TicketPathOp op) ∧ WFdb exDB ∧ exDB.tickets = [] ∧
    findUser exDB 1 = some { id := 1, balance := 100, role := "user" } ∧
    balOf (runOps exOps exDB) 1
      = some ((100 : Rat) - sumStakes (runOps exOps exDB).tickets 1
          + sumWonPayouts (runOps exOps exDB).tickets 1
          + sumCanceledStakes (runOps exOps exDB).tickets 1) := by
  have hops : ∀ op ∈ exOps, TicketPathOp op := by
    intro op hop
    simp only [exOps, List.mem_cons, List.not_mem_nil, or_false] at hop
    rcases hop with rfl | rfl <;> trivial
  have hwf : WFdb exDB := by simp [WFdb, exDB]
  have h0 : exDB.tickets = [] := rfl
  have hu : findUser exDB 1 = some { id := 1, balance := 100, role := "user" } := rfl
  refine ⟨hops, hwf, h0, hu, ?_⟩
  simpa using conservation_via_ticket_settlement exOps exDB hops hwf h0 1 _ hu

/-- C2 counterexample: the same placement followed by settlements
`lost` then `won` through the bet-controller endpoint ends with the
ticket in status `won` and balance 90, while the conservation formula
demands 115 — the claim quantified over all settlement operations is
false. -/
theorem conservation_fails_via_bet_settlement :
    exDB.tickets = [] ∧ balOf exDB 1 = some 100 ∧
    balOf (runOps exOpsBet exDB) 1 = some 90 ∧
    (100 : Rat) - sumStakes (runOps exOpsBet exDB).tickets 1
      + sumWonPayouts (runOps exOpsBet exDB).tickets 1
      + sumCanceledStakes (runOps exOpsBet exDB).tickets 1 = 115 := by
  refine ⟨rfl, rfl, ?_, ?_⟩ <;>
    · norm_num +decide [runOps, applyOp, exOpsBet, exDB, placeBet, placeBetTx, placeBetLoop,
        findUser, findUserL, findOddsWithEvent, findOddsL, findEventL, decimalOdds,
        mkTicketItem, debitUsers, updateTicketStatusBet, findTicket, findTicketL,
        updateTicketsStatus, updateItemsStatus, creditUsers, balOf,
        sumStakes, sumWonPayouts, sumCanceledStakes]

/-! ### Claims C1 and C8 — settlement state machine -/

lemma findTicketL_updateStatus_self {l : List Ticket} {tid : Nat} {t : Ticket}
    (s : TicketStatus) (h : findTicketL l tid = some t) :
    findTicketL (updateTicketsStatus tid s l) tid = some { t with status := s } := by
  rw [updateTicketsStatus_eq_map,
    findTicketL_map _ (fun x => by by_cases hx : x.id = tid <;> simp [hx]), h]
  simp [(findTicketL_some h).2]

/-- C1 (amended): on a ticket in a terminal (non-`pending`) state, a
settlement request to a different status is rejected by the
ticket-controller endpoint with the illegal-transition error and leaves
the store untouched; the bet-controller endpoint, however, accepts the
same request: it leaves every balance unchanged but answers
success with the ticket's status overwritten
(see `settle_won_to_lost_not_rejected` for the concrete violation of the
claim as stated). -/
theorem terminal_transition_behavior
    (db : DB) (tid : Nat) (st : TicketStatus) (t : Ticket)
    (hft : findTicket db tid = some t) (hterm : t.status ≠ TicketStatus.pending)
    (hne : st ≠ t.status) :
    updateTicketStatusTicket db tid st = (db, .error (.illegalTransition t.status)) ∧
    (updateTicketStatusBet db tid st).1.users = db.users ∧
    (updateTicketStatusBet db tid st).2 = .ok { t with status := st } := by
  have h1 : ¬ t.status = st := fun hc => hne hc.symm
  refine ⟨?_, ?_, ?_⟩
  · unfold updateTicketStatusTicket
    rw [hft]
    dsimp only
    rw [if_neg h1, if_pos hterm]
  · unfold updateTicketStatusBet
    rw [hft]
    dsimp only
    rw [if_neg h1,
      if_neg (fun hc : st = TicketStatus.won ∧ t.status = TicketStatus.pending => hterm hc.2),
      if_neg (fun hc : st = TicketStatus.canceled ∧ t.status = TicketStatus.pending => hterm hc.2)]
  · unfold updateTicketStatusBet
    rw [hft]
    dsimp only
    rw [if_neg h1]

/-- C1 witness: on the store `exDBWon`, whose only ticket is `won`,
settling to `lost` through the ticket controller is rejected and changes
nothing, while the bet controller leaves balances unchanged but answers
success. -/
theorem terminal_transition_behavior_witness :
    findTicket exDBWon 1
      = some { id := 1, userId := 1, totalOdds := 5/2, stakeAmount := 10,
               potentialPayout := 25, status := .won } ∧
    TicketStatus.won ≠ TicketStatus.pending ∧
    TicketStatus.lost ≠ TicketStatus.won ∧
    updateTicketStatusTicket exDBWon 1 .lost
      = (exDBWon, .error (.illegalTransition .won)) ∧
    (updateTicketStatusBet exDBWon 1 .lost).1.users = exDBWon.users ∧
    (updateTicketStatusBet exDBWon 1 .lost).2
      = .ok { id := 1, userId := 1, totalOdds := 5/2, stakeAmount := 10,
              potentialPayout := 25, status := .lost } := by
  have h := terminal_transition_behavior exDBWon 1 .lost
    { id := 1, userId := 1, totalOdds := 5/2, stakeAmount := 10,
      potentialPayout := 25, status := .won } rfl (by decide) (by decide)
  exact ⟨rfl, by decide, by decide, h.1, h.2.1, h.2.2⟩

/-- C1 counterexample: through the bet-controller settlement endpoint,
settling the `won` ticket of `exDBWon` to `lost` is not rejected — it
succeeds and overwrites the ticket's status (the balance stays 115), so
the claim that every settlement endpoint rejects terminal transitions
with IllegalTransition and leaves the ticket's status unchanged is false
on this input. -/
theorem settle_won_to_lost_not_rejected :
    (updateTicketStatusBet exDBWon 1 .lost).2
      = .ok { id := 1, userId := 1, totalOdds := 5/2, stakeAmount := 10,
              potentialPayout := 25, status := .lost } ∧
    findTicket (updateTicketStatusBet exDBWon 1 .lost).1 1
      = some { id := 1, userId := 1, totalOdds := 5/2, stakeAmount := 10,
               potentialPayout := 25, status := .lost } ∧
    balOf (updateTicketStatusBet exDBWon 1 .lost).1 1 = some 115 := by
  refine ⟨?_, ?_, ?_⟩ <;>
    norm_num +decide [updateTicketStatusBet, findTicket, findTicketL, exDBWon,
      exDBPending, updateTicketsStatus, updateItemsStatus, creditUsers, balOf,
      findUser, findUserL]

lemma settle_same_status_bet {db : DB} {tid : Nat} {st : TicketStatus} {u : Ticket}
    (hft : findTicket db tid = some u) (hs : u.status = st) :
    updateTicketStatusBet db tid st = (db, .ok u) := by
  unfold updateTicketStatusBet
  simp only [hft]
  rw [if_pos hs]

lemma settle_same_status_ticket {db : DB} {tid : Nat} {st : TicketStatus} {u : Ticket}
    (hft : findTicket db tid = some u) (hs : u.status = st) :
    updateTicketStatusTicket db tid st = (db, .ok u) := by
  unfold updateTicketStatusTicket
  simp only [hft]
  rw [if_pos hs]

/-- C8: settlement is idempotent on both endpoints: when a settlement
call succeeds with state `db'` and response `r`, repeating the call with
the same ticket and outcome succeeds again, returns the same response,
and leaves the state exactly `db'` — so the balance effect of a
settlement is applied exactly once, and re-settling an already-terminal
ticket to its own status is a no-op success, not an error. -/
theorem settlement_idempotent (db : DB) (tid : Nat) (st : TicketStatus)
    (db' : DB) (r : Ticket) :
    (updateTicketStatusBet db tid st = (db', .ok r) →
      updateTicketStatusBet db' tid st = (db', .ok r)) ∧
    (updateTicketStatusTicket db tid st = (db', .ok r) →
      updateTicketStatusTicket db' tid st = (db', .ok r)) := by
  constructor
  · intro h
    unfold updateTicketStatusBet at h
    cases hft : findTicket db tid with
    | none =>
      rw [hft] at h
      exact absurd h (by simp)
    | some t =>
      simp only [hft] at h
      by_cases h1 : t.status = st
      · rw [if_pos h1] at h
        simp only [Prod.mk.injEq, Except.ok.injEq] at h
        rw [← h.1, ← h.2]
        exact settle_same_status_bet hft h1
      · rw [if_neg h1] at h
        simp only [Prod.mk.injEq, Except.ok.injEq] at h
        rw [← h.1, ← h.2]
        refine settle_same_status_bet ?_ rfl
        by_cases hc2 : st = TicketStatus.canceled ∧ t.status = TicketStatus.pending <;>
          by_cases hc1 : st = TicketStatus.won ∧ t.status = TicketStatus.pending <;>
            simpa [findTicket, hc1, hc2] using
              findTicketL_updateStatus_self (l := db.tickets) st hft
  · intro h
    unfold updateTicketStatusTicket at h
    cases hft : findTicket db tid with
    | none =>
      rw [hft] at h
      exact absurd h (by simp)
    | some t =>
      simp only [hft] at h
      by_cases h1 : t.status = st
      · rw [if_pos h1] at h
        simp only [Prod.mk.injEq, Except.ok.injEq] at h
        rw [← h.1, ← h.2]
        exact settle_same_status_ticket hft h1
      · rw [if_neg h1] at h
        by_cases h2 : t.status ≠ TicketStatus.pending
        · rw [if_pos h2] at h
          exact absurd h (by simp)
        · rw [if_neg h2] at h
          simp only [Prod.mk.injEq, Except.ok.injEq] at h
          rw [← h.1, ← h.2]
          refine settle_same_status_ticket ?_ rfl
          by_cases hc2 : st = TicketStatus.canceled <;>
            by_cases hc1 : st = TicketStatus.won <;>
              simpa [findTicket, hc1, hc2] using
                findTicketL_updateStatus_self (l := db.tickets) st hft

/-- C8 witness: settling the pending ticket of `exDBPending` as won
credits the payout once (balance 115); settling it as won again returns
the same response and the identical store. -/
theorem settlement_idempotent_witness :
    updateTicketStatusBet exDBPending 1 .won
      = (exDBWon, .ok { id := 1, userId := 1, totalOdds := 5/2, stakeAmount := 10,
                        potentialPayout := 25, status := .won }) ∧
    updateTicketStatusBet exDBWon 1 .won
      = (exDBWon, .ok { id := 1, userId := 1, totalOdds := 5/2, stakeAmount := 10,
                        potentialPayout := 25, status := .won }) ∧
    balOf exDBWon 1 = some 115 := by
  have h1 : updateTicketStatusBet exDBPending 1 .won
      = (exDBWon, .ok { id := 1, userId := 1, totalOdds := 5/2, stakeAmount := 10,
                        potentialPayout := 25, status := .won }) := by
    norm_num +decide [updateTicketStatusBet, findTicket, findTicketL, exDBPending,
      exDBWon, updateTicketsStatus, updateItemsStatus, creditUsers]
  exact ⟨h1, (settlement_idempotent exDBPending 1 .won exDBWon _).1 h1, rfl⟩

/-! ### Claims C3 and C6 — placement failures -/

/-- C3: whenever `placeBet` answers an error — any failed precondition,
insufficient funds included — it performs no writes: the store it leaves
behind is exactly the store it started from (no ticket row, no leg rows,
no balance change). -/
theorem placeBet_error_no_writes (now : Int) (uid : Nat) (stake : Rat)
    (sels : List Selection) (db : DB) (e : BetError)
    (h : (placeBet now uid stake sels db).2 = .error e) :
    (placeBet now uid stake sels db).1 = db := by
  unfold placeBet at h ⊢
  cases htx : placeBetTx now uid stake sels db with
  | error e2 => simp only [htx]
  | ok p =>
    rw [htx] at h
    exact absurd h (by simp)

/-- C3 witness: with balance 5 and stake 10 the placement fails with the
insufficient-funds error, the store is unchanged, the balance remains 5,
and no ticket exists. -/
theorem placeBet_error_no_writes_witness :
    (placeBet 0 1 10 [{ oddsId := 1, declaredPrice := none }] exDBLow).2
      = .error .insufficientFunds ∧
    (placeBet 0 1 10 [{ oddsId := 1, declaredPrice := none }] exDBLow).1 = exDBLow ∧
    balOf exDBLow 1 = some 5 ∧ exDBLow.tickets = [] := by
  have h : (placeBet 0 1 10 [{ oddsId := 1, declaredPrice := none }] exDBLow).2
      = .error .insufficientFunds := by
    norm_num +decide [placeBet, placeBetTx, findUser, findUserL, exDBLow, exDB]
  exact ⟨h, placeBet_error_no_writes 0 1 10 _ exDBLow .insufficientFunds h, rfl, rfl⟩

/-- C6 (amended): a placement request with an empty list of legs is
rejected with the invalid-input error and the store is left unchanged —
but the check runs inside the controller, after a store connection and
the `BEGIN` of the transaction, not before any store access; and a
non-positive stake is not rejected at all: the route declares a
`min: 1` validator but `placeBet` never reads the validation result
(see `negative_stake_accepted`). -/
theorem empty_selections_rejected (now : Int) (uid : Nat) (stake : Rat) (db : DB) :
    placeBet now uid stake [] db = (db, .error .invalidInput) := rfl

/-- C6 counterexample: a stake of -10 sails through every check (the
balance comparison `100 < -10` is false), a ticket with negative
potential payout is created, and debiting the negative stake increases
the balance from 100 to 110 — refuting the claim that every non-positive
stake is rejected as invalid input. -/
theorem negative_stake_accepted :
    ¬ (0 : Rat) < -10 ∧
    (placeBet 0 1 (-10) [{ oddsId := 1, declaredPrice := none }] exDB).2
      = .ok { ticketId := 1, stakeAmount := -10, totalOdds := 5/2, potentialPayout := -25 } ∧
    balOf (placeBet 0 1 (-10) [{ oddsId := 1, declaredPrice := none }] exDB).1 1
      = some 110 := by
  refine ⟨by norm_num, ?_, ?_⟩ <;>
    norm_num +decide [placeBet, placeBetTx, placeBetLoop, findUser, findUserL,
      findOddsWithEvent, findOddsL, findEventL, decimalOdds, exDB, mkTicketItem,
      debitUsers, balOf]


/-! ### Claim C4 — total price and potential payout -/

lemma placeBetLoop_total {now : Int} {db : DB} :
    ∀ (sels : List Selection) (acc : Rat) (dl : List Odds) (T : Rat) (D : List Odds),
      placeBetLoop now db sels acc dl = .ok (T, D) →
      T = acc * ((legPrices db sels).map decimalOdds).prod := by
  intro sels
  induction sels with
  | nil =>
    intro acc dl T D h
    simp only [placeBetLoop, Except.ok.injEq, Prod.mk.injEq] at h
    simp [legPrices, ← h.1]
  | cons sel rest ih =>
    intro acc dl T D h
    unfold placeBetLoop at h
    cases hoe : findOddsWithEvent db sel.oddsId with
    | none =>
      rw [hoe] at h
      exact absurd h (by simp)
    | some oe =>
      obtain ⟨o, e⟩ := oe
      simp only [hoe] at h
      by_cases hle : e.commenceTime ≤ now
      · rw [if_pos hle] at h
        exact absurd h (by simp)
      · rw [if_neg hle] at h
        rw [ih (acc * decimalOdds o.price) (o :: dl) T D h]
        simp only [legPrices, List.filterMap_cons, hoe, Option.map_some', List.map_cons,
          List.prod_cons]
        ring

lemma decimalOdds_eq_spec {p : Rat} (hp : p ≠ 0) : decimalOdds p = specDecimalOdds p := by
  unfold decimalOdds specDecimalOdds
  rcases lt_trichotomy 0 p with h | h | h
  · rw [if_pos h, if_pos (le_of_lt h)]
  · exact absurd h.symm hp
  · rw [if_neg (asymm h), if_neg (not_le.mpr h)]

/-- C4: for a successful placement, the returned and stored total price
is the product over all legs of the specification's American-odds
conversion of each leg's snapshot price (prices being nonzero, as the
American convention requires — at price 0 the code divides by zero), and
the stored potential payout is the stake times that total price; the
ticket row is stored with exactly these values and status `pending`. -/
theorem placeBet_payout_formula
    (now : Int) (uid : Nat) (stake : Rat) (sels : List Selection) (db db' : DB)
    (r : PlaceResult) (h : placeBet now uid stake sels db = (db', .ok r))
    (hnz : ∀ p ∈ legPrices db sels, p ≠ 0)
    (hwf : ∀ i ∈ db.tickets.map Ticket.id, i < db.nextTicketId) :
    r.potentialPayout = r.stakeAmount * r.totalOdds ∧
    r.stakeAmount = stake ∧
    r.totalOdds = ((legPrices db sels).map specDecimalOdds).prod ∧
    findTicket db' r.ticketId
      = some { id := r.ticketId, userId := uid, totalOdds := r.totalOdds,
               stakeAmount := stake, potentialPayout := r.potentialPayout,
               status := .pending } := by
  unfold placeBet at h
  cases htx : placeBetTx now uid stake sels db with
  | error e =>
    rw [htx] at h
    simp at h
  | ok p =>
    rw [htx] at h
    obtain ⟨user, T, D, hfu, hbal, hloop, hr, hdb⟩ := placeBetTx_ok htx
    obtain ⟨db2, r2⟩ := p
    simp only [Prod.mk.injEq, Except.ok.injEq] at h
    obtain ⟨h1, h2⟩ := h
    subst h1
    subst h2
    subst hr
    subst hdb
    have hT : T = ((legPrices db sels).map specDecimalOdds).prod := by
      rw [placeBetLoop_total sels 1 [] T D hloop, one_mul]
      refine congrArg List.prod ?_
      exact List.map_congr_left (fun p hp => decimalOdds_eq_spec (hnz p hp))
    refine ⟨rfl, rfl, hT, ?_⟩
    show findTicketL _ _ = _
    rw [findTicketL_append_left
      (fun t ht hc => absurd (hc ▸ hwf t.id (List.mem_map_of_mem Ticket.id ht))
        (lt_irrefl _))]
    simp [findTicketL]

/-- C4 witness: stake 10 on legs priced +150 and -120 yields total price
(5/2) × (11/6) = 55/12 ≈ 4.5833 and potential payout 275/6 ≈ 45.83, as
returned and as stored on the ticket row. -/
theorem placeBet_payout_formula_witness :
    placeBet 0 1 10 [{ oddsId := 1, declaredPrice := none },
        { oddsId := 2, declaredPrice := none }] exDB = (exDBPlaced, .ok exPlacedR) ∧
    (∀ p ∈ legPrices exDB [{ oddsId := 1, declaredPrice := none },
        { oddsId := 2, declaredPrice := none }], p ≠ 0) ∧
    exPlacedR.potentialPayout = exPlacedR.stakeAmount * exPlacedR.totalOdds ∧
    exPlacedR.totalOdds
      = ((legPrices exDB [{ oddsId := 1, declaredPrice := none },
          { oddsId := 2, declaredPrice := none }]).map specDecimalOdds).prod ∧
    findTicket exDBPlaced 1
      = some { id := 1, userId := 1, totalOdds := 55/12, stakeAmount := 10,
               potentialPayout := 275/6, status := .pending } ∧
    exPlacedR.totalOdds = 55/12 ∧ exPlacedR.potentialPayout = 275/6 := by
  have h : placeBet 0 1 10 [{ oddsId := 1, declaredPrice := none },
      { oddsId := 2, declaredPrice := none }] exDB = (exDBPlaced, .ok exPlacedR) := by
    norm_num +decide [placeBet, placeBetTx, placeBetLoop, findUser, findUserL,
      findOddsWithEvent, findOddsL, findEventL, decimalOdds, exDB, exDBPlaced,
      exPlacedR, mkTicketItem, debitUsers]
  have hnz : ∀ p ∈ legPrices exDB [{ oddsId := 1, declaredPrice := none },
      { oddsId := 2, declaredPrice := none }], p ≠ 0 := by
    intro p hp
    simp only [legPrices, List.filterMap_cons, List.filterMap_nil, findOddsWithEvent,
      findOddsL, findEventL, exDB] at hp
    norm_num at hp
    rcases hp with rfl | rfl <;> norm_num
  have hwf : ∀ i ∈ exDB.tickets.map Ticket.id, i < exDB.nextTicketId := by
    intro i hi
    simp [exDB] at hi
  have hmain := placeBet_payout_formula 0 1 10 _ exDB exDBPlaced exPlacedR h hnz hwf
  exact ⟨h, hnz, hmain.1, hmain.2.2.1, by simpa [exPlacedR] using hmain.2.2.2, rfl, rfl⟩


/-! ### Claim C5 — declared price -/

lemma placeBetLoop_ignores_declared {now : Int} {db : DB} (f : Selection → Option Rat) :
    ∀ (sels : List Selection) (acc : Rat) (dl : List Odds),
      placeBetLoop now db (sels.map (fun s => { s with declaredPrice := f s })) acc dl
        = placeBetLoop now db sels acc dl := by
  intro sels
  induction sels with
  | nil => intro acc dl; rfl
  | cons sel rest ih =>
    intro acc dl
    simp only [List.map_cons]
    unfold placeBetLoop
    cases hoe : findOddsWithEvent db sel.oddsId with
    | none => simp only [hoe]
    | some oe =>
      obtain ⟨o, e⟩ := oe
      simp only [hoe]
      by_cases hle : e.commenceTime ≤ now
      · rw [if_pos hle, if_pos hle]
      · rw [if_neg hle, if_neg hle]
        exact ih (acc * decimalOdds o.price) (o :: dl)

/-- C5 (amended): `placeBet` reads only `oddsId` from each leg request;
any price the client declares alongside it is ignored, so the outcome of
a placement — acceptance, rejection, pricing, and the resulting store —
is identical whatever declared prices accompany the legs. There is no
odds-mismatch comparison and no OddsChanged rejection: each leg is
silently priced from the stored snapshot
(see `declared_price_mismatch_not_rejected`). -/
theorem placeBet_ignores_declared_price (now : Int) (uid : Nat) (stake : Rat)
    (sels : List Selection) (db : DB) (f : Selection → Option Rat) :
    placeBet now uid stake (sels.map (fun s => { s with declaredPrice := f s })) db
      = placeBet now uid stake sels db := by
  have htx : placeBetTx now uid stake (sels.map (fun s => { s with declaredPrice := f s })) db
      = placeBetTx now uid stake sels db := by
    have hie : (sels.map (fun s => { s with declaredPrice := f s })).isEmpty
        = sels.isEmpty := by cases sels <;> rfl
    unfold placeBetTx
    rw [hie, placeBetLoop_ignores_declared f sels 1 []]
  unfold placeBet
  rw [htx]

/-- C5 counterexample: the snapshot for odds id 1 is priced +150; a
request declaring price 100 for that leg is not rejected with any error —
the bet is accepted and priced from the stored +150 (total odds 5/2),
refuting the claim that a mismatching declared price is rejected with
OddsChanged. -/
theorem declared_price_mismatch_not_rejected :
    some (100 : Rat) ≠ some (150 : Rat) ∧
    findOddsL exDB.odds 1
      = some { id := 1, eventId := 1, price := 150, outcomeName := "Home",
               handicap := none, total := none } ∧
    (placeBet 0 1 10 [{ oddsId := 1, declaredPrice := some 100 }] exDB).2
      = .ok { ticketId := 1, stakeAmount := 10, totalOdds := 5/2, potentialPayout := 25 } := by
  refine ⟨by norm_num, rfl, ?_⟩
  norm_num +decide [placeBet, placeBetTx, placeBetLoop, findUser, findUserL,
    findOddsWithEvent, findOddsL, findEventL, decimalOdds, exDB, mkTicketItem,
    debitUsers]


/-! ### Claim C7 — event lifecycle gate -/

lemma findOddsWithEvent_eventStatuses (f : Event → String) (db : DB) (oid : Nat) :
    findOddsWithEvent (withEventStatuses f db) oid
      = (findOddsWithEvent db oid).map
          (fun oe => (oe.1, { oe.2 with status := f oe.2 })) := by
  unfold findOddsWithEvent withEventStatuses
  cases h1 : findOddsL db.odds oid with
  | none => simp [h1]
  | some o =>
    simp only [h1]
    rw [findEventL_map (fun e => { e with status := f e }) (fun e => rfl) db.events o.eventId]
    cases h2 : findEventL db.events o.eventId with
    | none => rfl
    | some e => rfl

lemma placeBetLoop_eventStatuses {now : Int} {db : DB} (f : Event → String) :
    ∀ (sels : List Selection) (acc : Rat) (dl : List Odds),
      placeBetLoop now (withEventStatuses f db) sels acc dl
        = placeBetLoop now db sels acc dl := by
  intro sels
  induction sels with
  | nil => intro acc dl; rfl
  | cons sel rest ih =>
    intro acc dl
    unfold placeBetLoop
    rw [findOddsWithEvent_eventStatuses]
    cases hoe : findOddsWithEvent db sel.oddsId with
    | none => rfl
    | some oe =>
      obtain ⟨o, e⟩ := oe
      simp only [Option.map_some']
      by_cases hle : e.commenceTime ≤ now
      · rw [if_pos hle, if_pos hle]
      · rw [if_neg hle, if_neg hle]
        exact ih (acc * decimalOdds o.price) (o :: dl)

lemma placeBetTx_eventStatuses (now : Int) (uid : Nat) (stake : Rat)
    (sels : List Selection) (db : DB) (f : Event → String) :
    placeBetTx now uid stake sels (withEventStatuses f db)
      = (placeBetTx now uid stake sels db).map (fun p => (withEventStatuses f p.1, p.2)) := by
  unfold placeBetTx
  by_cases hie : sels.isEmpty
  · rw [if_pos hie, if_pos hie]
    rfl
  · rw [if_neg hie, if_neg hie]
    have hfu : findUser (withEventStatuses f db) uid = findUser db uid := rfl
    rw [hfu]
    cases hu : findUser db uid with
    | none => rfl
    | some user =>
      dsimp only
      by_cases hbal : user.balance < stake
      · rw [if_pos hbal, if_pos hbal]
        rfl
      · rw [if_neg hbal, if_neg hbal]
        rw [placeBetLoop_eventStatuses f sels 1 []]
        cases hloop : placeBetLoop now db sels 1 [] with
        | error e => rfl
        | ok p => obtain ⟨T, D⟩ := p; rfl

lemma placeBetLoop_gate {now : Int} {db : DB} :
    ∀ (sels : List Selection) (acc : Rat) (dl : List Odds) (T : Rat) (D : List Odds),
      placeBetLoop now db sels acc dl = .ok (T, D) →
      ∀ s ∈ sels, ∀ o e, findOddsWithEvent db s.oddsId = some (o, e) →
        now < e.commenceTime := by
  intro sels
  induction sels with
  | nil => intro acc dl T D h s hs; cases hs
  | cons sel rest ih =>
    intro acc dl T D h s hs o e hoe2
    unfold placeBetLoop at h
    cases hoe : findOddsWithEvent db sel.oddsId with
    | none =>
      rw [hoe] at h
      exact absurd h (by simp)
    | some oe =>
      obtain ⟨o1, e1⟩ := oe
      simp only [hoe] at h
      by_cases hle : e1.commenceTime ≤ now
      · rw [if_pos hle] at h
        exact absurd h (by simp)
      · rw [if_neg hle] at h
        rcases List.mem_cons.mp hs with rfl | hs2
        · have : o1 = o ∧ e1 = e := by
            have := hoe.symm.trans hoe2
            simpa [Prod.ext_iff] using this
          rw [← this.2]
          exact lt_of_not_le hle
        · exact ih (acc * decimalOdds o1.price) (o1 :: dl) T D h s hs2 o e hoe2

/-- C7 (amended): the placement gate consults only the event's commence
time, not its status: (1) every leg of a committed placement refers to an
event whose commence time is strictly after the transaction's `now`;
(2) the outcome of `placeBet` is invariant under arbitrary rewriting of
every event's `status` column — so `isBiddable`'s `status = upcoming`
conjunct is not enforced, and a leg on a non-upcoming event with a future
commence time is accepted (see `non_upcoming_event_accepted`). -/
theorem event_gate_only_commence_time :
    (∀ (now : Int) (uid : Nat) (stake : Rat) (sels : List Selection) (db db' : DB)
        (r : PlaceResult),
        placeBet now uid stake sels db = (db', .ok r) →
        ∀ s ∈ sels, ∀ o e, findOddsWithEvent db s.oddsId = some (o, e) →
          now < e.commenceTime) ∧
    (∀ (now : Int) (uid : Nat) (stake : Rat) (sels : List Selection) (db : DB)
        (f : Event → String),
        placeBet now uid stake sels (withEventStatuses f db)
          = (withEventStatuses f (placeBet now uid stake sels db).1,
             (placeBet now uid stake sels db).2)) := by
  constructor
  · intro now uid stake sels db db' r h s hs o e hoe
    unfold placeBet at h
    cases htx : placeBetTx now uid stake sels db with
    | error e2 =>
      rw [htx] at h
      simp at h
    | ok p =>
      obtain ⟨user, T, D, hfu, hbal, hloop, hr, hdb⟩ := placeBetTx_ok htx
      exact placeBetLoop_gate sels 1 [] T D hloop s hs o e hoe
  · intro now uid stake sels db f
    unfold placeBet
    rw [placeBetTx_eventStatuses]
    cases htx : placeBetTx now uid stake sels db with
    | error e => rfl
    | ok p => obtain ⟨db2, r2⟩ := p; rfl

/-- C7 witness: the committed single-leg placement on `exDB` implies the
resolved event's commence time 100 is after the transaction time 0. -/
theorem event_gate_only_commence_time_witness :
    placeBet 0 1 10 [{ oddsId := 1, declaredPrice := none }] exDB
      = (exDBPending, .ok { ticketId := 1, stakeAmount := 10, totalOdds := 5/2,
                            potentialPayout := 25 }) ∧
    (0 : Int) < 100 := by
  have h : placeBet 0 1 10 [{ oddsId := 1, declaredPrice := none }] exDB
      = (exDBPending, .ok { ticketId := 1, stakeAmount := 10, totalOdds := 5/2,
                            potentialPayout := 25 }) := by
    norm_num +decide [placeBet, placeBetTx, placeBetLoop, findUser, findUserL,
      findOddsWithEvent, findOddsL, findEventL, decimalOdds, exDB, exDBPending,
      mkTicketItem, debitUsers]
  refine ⟨h, ?_⟩
  exact event_gate_only_commence_time.1 0 1 10 _ exDB exDBPending _ h
    { oddsId := 1, declaredPrice := none } (by simp)
    { id := 1, eventId := 1, price := 150, outcomeName := "Home",
      handicap := none, total := none }
    { id := 1, commenceTime := 100, status := "upcoming" } rfl

/-- C7 counterexample: in `exDBDone` the event's status is `completed`,
not `upcoming`, yet its commence time 100 is in the future and the
placement succeeds — refuting the claim that a leg is accepted exactly
when `isBiddable` (status upcoming AND future commence time) holds. -/
theorem non_upcoming_event_accepted :
    exDBDone.events = [{ id := 1, commenceTime := 100, status := "completed" }] ∧
    "completed" ≠ "upcoming" ∧
    (placeBet 0 1 10 [{ oddsId := 1, declaredPrice := none }] exDBDone).2
      = .ok { ticketId := 1, stakeAmount := 10, totalOdds := 5/2, potentialPayout := 25 } := by
  refine ⟨rfl, by decide, ?_⟩
  norm_num +decide [placeBet, placeBetTx, placeBetLoop, findUser, findUserL,
    findOddsWithEvent, findOddsL, findEventL, decimalOdds, exDBDone, exDB,
    mkTicketItem, debitUsers]


/-! ### Claim C9 — frozen payout -/

/-- C9: (1) rewriting an odds snapshot's price touches only the odds
table — tickets, legs (with their frozen `odds_value`), and balances are
unchanged; (2) settlement is independent of the odds table altogether:
running the bet-controller settlement on a store with any odds rows
yields the same outcome and the same store apart from carrying those
odds rows through; (3) settling a pending ticket as won credits exactly
the stored `potential_payout` of the ticket row, not a value recomputed
from legs or live odds. -/
theorem payout_frozen :
    (∀ (db : DB) (oid : Nat) (p : Rat),
        (updateOddsPrice db oid p).tickets = db.tickets ∧
        (updateOddsPrice db oid p).ticketItems = db.ticketItems ∧
        (updateOddsPrice db oid p).users = db.users) ∧
    (∀ (db : DB) (odds1 : List Odds) (tid : Nat) (st : TicketStatus),
        updateTicketStatusBet { db with odds := odds1 } tid st
          = ({ (updateTicketStatusBet db tid st).1 with odds := odds1 },
             (updateTicketStatusBet db tid st).2)) ∧
    (∀ (db : DB) (tid : Nat) (t : Ticket),
        findTicket db tid = some t → t.status = TicketStatus.pending →
        balOf (updateTicketStatusBet db tid .won).1 t.userId
          = (balOf db t.userId).map (fun b => b + t.potentialPayout)) := by
  refine ⟨fun db oid p => ⟨rfl, rfl, rfl⟩, ?_, ?_⟩
  · intro db odds1 tid st
    unfold updateTicketStatusBet
    have hfteq : findTicket { db with odds := odds1 } tid = findTicket db tid := rfl
    rw [hfteq]
    cases hft : findTicket db tid with
    | none => rfl
    | some t =>
      dsimp only
      by_cases h1 : t.status = st
      · rw [if_pos h1, if_pos h1]
      · rw [if_neg h1, if_neg h1]
        by_cases hc1 : st = TicketStatus.won ∧ t.status = TicketStatus.pending <;>
          by_cases hc2 : st = TicketStatus.canceled ∧ t.status = TicketStatus.pending <;>
            simp [hc1, hc2]
  · intro db tid t hft hp
    unfold updateTicketStatusBet
    simp +decide only [hft, hp, if_true, if_false]
    simp only [balOf, findUser, findUserL_credit]
    cases hx : findUserL db.users t.userId with
    | none => rfl
    | some u =>
      simp [findUserL_some_id hx]

/-- C9 witness: after changing the referenced snapshot's price from +150
to 999 on `exDBPending`, the stored ticket and its frozen leg are
unchanged, and settling the ticket as won still credits the stored
payout 25, taking the balance from 90 to 115. -/
theorem payout_frozen_witness :
    (updateOddsPrice exDBPending 1 999).tickets = exDBPending.tickets ∧
    (updateOddsPrice exDBPending 1 999).ticketItems = exDBPending.ticketItems ∧
    findTicket (updateOddsPrice exDBPending 1 999) 1
      = some { id := 1, userId := 1, totalOdds := 5/2, stakeAmount := 10,
               potentialPayout := 25, status := .pending } ∧
    balOf (updateTicketStatusBet (updateOddsPrice exDBPending 1 999) 1 .won).1 1
      = some (90 + 25) := by
  refine ⟨(payout_frozen.1 exDBPending 1 999).1, (payout_frozen.1 exDBPending 1 999).2.1,
    rfl, ?_⟩
  have h := payout_frozen.2.2 (updateOddsPrice exDBPending 1 999) 1
    { id := 1, userId := 1, totalOdds := 5/2, stakeAmount := 10,
      potentialPayout := 25, status := .pending } rfl rfl
  simpa using h

/-! ### Claim C10 — balance mutators -/

/-- C10 (amended): besides deposit completion, withdrawal completion, bet
placement, and bet settlement, two further operations mutate balances:
deleting a pending ticket refunds its stake to the owner, and the admin
user update overwrites the balance when one is supplied. The remaining
modeled operations are frames: an admin user update without a balance, a
deletion of a canceled ticket, and an odds price update leave every
user's balance unchanged. -/
theorem balance_mutators_characterized :
    (∀ (db : DB) (uid : Nat) (r : Option String) (x : Nat),
        balOf (updateUserByAdmin db uid r none).1 x = balOf db x) ∧
    (∀ (db : DB) (tid : Nat) (t : Ticket), findTicket db tid = some t →
        t.status = TicketStatus.canceled →
        ∀ x, balOf (deleteTicket db tid).1 x = balOf db x) ∧
    (∀ (db : DB) (tid : Nat) (t : Ticket), findTicket db tid = some t →
        t.status = TicketStatus.pending →
        balOf (deleteTicket db tid).1 t.userId
          = (balOf db t.userId).map (fun b => b + t.stakeAmount)) ∧
    (∀ (db : DB) (oid : Nat) (p : Rat) (x : Nat),
        balOf (updateOddsPrice db oid p) x = balOf db x) ∧
    (∀ (db : DB) (uid : Nat) (u : User) (b : Rat), findUser db uid = some u →
        balOf (updateUserByAdmin db uid none (some b)).1 uid = some b) := by
  refine ⟨?_, ?_, ?_, fun db oid p x => rfl, ?_⟩
  · intro db uid r x
    unfold updateUserByAdmin
    cases hu : findUser db uid with
    | none => rfl
    | some u =>
      dsimp only
      cases r with
      | none =>
        cases hv : findUser db uid <;> simp [hv]
      | some rr =>
        have hb : balOf { db with users := setRoleUsers uid rr db.users } x = balOf db x := by
          simp only [balOf, findUser, findUserL_setRole]
          cases hx : findUserL db.users x with
          | none => rfl
          | some v => by_cases hvu : v.id = uid <;> simp [hvu]
        cases hv : findUser { db with users := setRoleUsers uid rr db.users } uid <;>
          simpa [hv] using hb
  · intro db tid t hft hc x
    unfold deleteTicket
    simp only [hft]
    rw [if_neg (show ¬ (t.status ≠ TicketStatus.pending ∧ t.status ≠ TicketStatus.canceled)
        from fun hcon => hcon.2 hc)]
    rw [if_neg (show ¬ t.status = TicketStatus.pending from by
      rw [hc]; exact fun h => nomatch h)]
    rfl
  · intro db tid t hft hp
    unfold deleteTicket
    simp only [hft]
    rw [if_neg (show ¬ (t.status ≠ TicketStatus.pending ∧ t.status ≠ TicketStatus.canceled)
        from fun hcon => hcon.1 hp)]
    rw [if_pos hp]
    simp only [balOf, findUser, findUserL_credit]
    cases hx : findUserL db.users t.userId with
    | none => rfl
    | some u => simp [findUserL_some_id hx]
  · intro db uid u b hu
    unfold updateUserByAdmin
    simp only [hu]
    have hb : findUserL (setBalanceUsers uid b db.users) uid
        = some { u with balance := b } := by
      rw [findUserL_setBalance]
      rw [show findUserL db.users uid = some u from hu]
      simp [findUserL_some_id (show findUserL db.users uid = some u from hu)]
    simp [findUser, hb, balOf]

/-- C10 counterexample: deleting the pending ticket of `exDBPending` —
an operation that is neither a deposit, a withdrawal, a placement, nor a
settlement — changes the owner's balance from 90 to 100 (the stake is
refunded), refuting the claim that every other operation leaves the
balance unchanged. -/
theorem delete_pending_ticket_changes_balance :
    balOf exDBPending 1 = some 90 ∧
    (deleteTicket exDBPending 1).2 = .ok () ∧
    balOf (deleteTicket exDBPending 1).1 1 = some 100 ∧
    findTicket (deleteTicket exDBPending 1).1 1 = none := by
  refine ⟨rfl, ?_, ?_, ?_⟩ <;>
    norm_num +decide [deleteTicket, findTicket, findTicketL, exDBPending, creditUsers,
      balOf, findUser, findUserL]

/-- C10 witness: deleting the pending ticket of `exDBPending` refunds the
stake (balance 90 + 10), and an admin update with balance 55 sets the
user's balance to 55. -/
theorem balance_mutators_characterized_witness :
    findTicket exDBPending 1
      = some { id := 1, userId := 1, totalOdds := 5/2, stakeAmount := 10,
               potentialPayout := 25, status := .pending } ∧
    balOf (deleteTicket exDBPending 1).1 1 = some (90 + 10) ∧
    findUser exDB 1 = some { id := 1, balance := 100, role := "user" } ∧
    balOf (updateUserByAdmin exDB 1 none (some 55)).1 1 = some 55 := by
  refine ⟨rfl, ?_, rfl, ?_⟩
  · have h := balance_mutators_characterized.2.2.1 exDBPending 1
      { id := 1, userId := 1, totalOdds := 5/2, stakeAmount := 10,
        potentialPayout := 25, status := .pending } rfl rfl
    simpa using h
  · exact balance_mutators_characterized.2.2.2.2 exDB 1 _ 55 rfl


end OracleSport
